import Mathlib

/-!
Shallow embedding of the maddi-type terminal typing tutor
(src/src/main.rs and src/src/cli.rs): the layout tables, the key
locator, the progress cursor, the input-event handler, the keyboard
highlight update and the story display window, together with proofs of
the specified properties.
-/

set_option maxRecDepth 10000

namespace MaddiType

/-- A keyboard layer, the Rust `type Layer = &'static [&'static [char]]`
(main.rs:403): a grid of characters, row by row. -/
abbrev Layer := List (List Char)

/-- Modifier tag of a located key (main.rs:405-409). -/
inductive Modifier
  | Shift
  | Sym
  | Cur
deriving DecidableEq

/-- Result of a key lookup (main.rs:411-415).  The Rust fields `row` and
`col` are `u8`; they are modelled as `Nat` and every value stored in them
is reduced `% 256`, mirroring the `as u8` casts at the construction
sites in `Layout::location`. -/
structure Location where
  row : Nat
  col : Nat
  modifier : Option Modifier
deriving DecidableEq

/-- A keyboard layout (main.rs:417-422). -/
structure Layout where
  name : String
  base : Layer
  sym : Layer
  cur : Layer
deriving DecidableEq

/-- The shift transform `Layout::shift` (main.rs:425-450).  Rust's
`to_ascii_uppercase` is `Char.toUpper`, which uppercases exactly the
ASCII letters and leaves all other characters unchanged. -/
def Layout.shift (c : Char) : Char :=
  match c with
  | '`' => '~'
  | '1' => '!'
  | '2' => '@'
  | '3' => '#'
  | '4' => '$'
  | '5' => '%'
  | '6' => '^'
  | '7' => '&'
  | '8' => '*'
  | '9' => '('
  | '0' => ')'
  | '[' => '\x7b'
  | ']' => '\x7d'
  | '\'' => '\"'
  | ',' => '<'
  | '.' => '>'
  | '/' => '?'
  | '=' => '+'
  | '\\' => '|'
  | '-' => '_'
  | ';' => ':'
  | c => c.toUpper

/-- Index of the first character of `row` satisfying `p`: the inner
`for (col_i, c_candidate) in row.iter().enumerate()` loops with early
`return` inside `Layout::location` (main.rs:451-501). -/
def scanRow (row : List Char) (p : Char → Bool) : Option Nat :=
  match row with
  | [] => none
  | x :: xs => if p x then some 0 else (scanRow xs p).map (· + 1)

/-- Row-major first hit in a layer: the outer
`for (row_i, row) in layer.iter().enumerate()` loops of
`Layout::location` (main.rs:451-501). -/
def scanLayer (layer : Layer) (p : Char → Bool) : Option (Nat × Nat) :=
  match layer with
  | [] => none
  | row :: rest =>
    match scanRow row p with
    | some co => some (0, co)
    | none => (scanLayer rest p).map fun rc => (rc.1 + 1, rc.2)

/-- The key locator `Layout::location` (main.rs:451-501): scan the base
layer for a verbatim match, then the sym layer, then the cur layer (with
the fixed column offset 6), then the base layer again comparing
`Layout::shift(cell) == c`; the first hit returns, otherwise `None`.
The `% 256` reductions model the `as u8` casts; `(co % 256 + 6) % 256`
models the u8 addition `col_i as u8 + 6` (wrapping; for every layer in
the program the indices are below 14, so no cast ever truncates). -/
def Layout.location (l : Layout) (c : Char) : Option Location :=
  match scanLayer l.base (fun x => x == c) with
  | some (r, co) => some { row := r % 256, col := co % 256, modifier := none }
  | none =>
    match scanLayer l.sym (fun x => x == c) with
    | some (r, co) => some { row := r % 256, col := co % 256, modifier := some Modifier.Sym }
    | none =>
      match scanLayer l.cur (fun x => x == c) with
      | some (r, co) => some { row := r % 256, col := (co % 256 + 6) % 256, modifier := some Modifier.Cur }
      | none =>
        match scanLayer l.base (fun x => Layout.shift x == c) with
        | some (r, co) => some { row := r % 256, col := co % 256, modifier := some Modifier.Shift }
        | none => none

/-- The Key Locator algorithm exactly as the spec states it (spec §4.2,
steps 1-5): step 1 base verbatim, else step 2 symbol layer, else step 3
numeric layer with the fixed column offset 6, else step 4 base layer
under the shift transform, else step 5 not found.  Written from the
spec's words, to be compared with `Layout.location` above. -/
def locationSpec (l : Layout) (c : Char) : Option Location :=
  ((scanLayer l.base (fun x => x == c)).map fun rc =>
    { row := rc.1 % 256, col := rc.2 % 256, modifier := none }) <|>
  ((scanLayer l.sym (fun x => x == c)).map fun rc =>
    { row := rc.1 % 256, col := rc.2 % 256, modifier := some Modifier.Sym }) <|>
  ((scanLayer l.cur (fun x => x == c)).map fun rc =>
    { row := rc.1 % 256, col := (rc.2 % 256 + 6) % 256, modifier := some Modifier.Cur }) <|>
  ((scanLayer l.base (fun x => Layout.shift x == c)).map fun rc =>
    { row := rc.1 % 256, col := rc.2 % 256, modifier := some Modifier.Shift })

/-- Re-indexing a layout at a returned `Location`: the layer named by the
location's modifier is read at `(row, col)`, subtracting the fixed column
offset 6 for the numeric (`Cur`) layer — the re-reading the spec's
round-trip property (spec §8, first bullet) talks about.  `none` and
`Shift` both address the base layer. -/
def Layout.cellAt (l : Layout) (loc : Location) : Option Char :=
  match loc.modifier with
  | none => (l.base[loc.row]?).bind (fun row => row[loc.col]?)
  | some Modifier.Shift => (l.base[loc.row]?).bind (fun row => row[loc.col]?)
  | some Modifier.Sym => (l.sym[loc.row]?).bind (fun row => row[loc.col]?)
  | some Modifier.Cur => (l.cur[loc.row]?).bind (fun row => row[loc.col - 6]?)

/-- A layer small enough that the `u8` index casts in `Layout::location`
are exact (every index fits far below 256, even after adding the numeric
column offset 6).  Every layer of the program satisfies this. -/
abbrev layerSmall (layer : Layer) : Prop :=
  layer.length ≤ 250 ∧ ∀ row ∈ layer, row.length ≤ 250

/-- All three layers of a layout are small (see `layerSmall`). -/
abbrev Layout.small (l : Layout) : Prop :=
  layerSmall l.base ∧ layerSmall l.sym ∧ layerSmall l.cur

/-- `KEYS_QWERTY_BASE` (main.rs:511-524); `'\u0000'` is the sentinel
empty-cell character `'\0'`. -/
def KEYS_QWERTY_BASE : Layer :=
  [['`', '1', '2', '3', '4', '5', '6', '7', '8', '9', '0', '[', ']', '\u0000'],
   ['\u0000', 'q', 'w', 'e', 'r', 't', 'y', 'u', 'i', 'o', 'p', '[', ']', '\\'],
   ['\u0000', 'a', 's', 'd', 'f', 'g', 'h', 'j', 'k', 'l', ';', '\'', '\u0000', '\u0000'],
   ['\u0000', 'z', 'x', 'c', 'v', 'b', 'n', 'm', ',', '.', '/', '\u0000', '\u0000', '\u0000']]

/-- `LAYOUT_QWERTY` (main.rs:504-509): empty sym and cur layers. -/
def LAYOUT_QWERTY : Layout :=
  { name := "QWERTY", base := KEYS_QWERTY_BASE, sym := [], cur := [] }

/-- `KEYS_DVORAK_BASE` (main.rs:533-546). -/
def KEYS_DVORAK_BASE : Layer :=
  [['`', '1', '2', '3', '4', '5', '6', '7', '8', '9', '0', '[', ']', '\u0000'],
   ['\u0000', '\'', ',', '.', 'p', 'y', 'f', 'g', 'c', 'r', '/', '=', '\\', '\u0000'],
   ['\u0000', 'a', 'o', 'e', 'u', 'i', 'd', 'h', 't', 'n', 's', '-', '\u0000', '\u0000'],
   ['\u0000', ';', 'q', 'j', 'k', 'x', 'b', 'm', 'w', 'v', 'z', '\u0000', '\u0000', '\u0000']]

/-- `LAYOUT_DVORAK` (main.rs:526-531). -/
def LAYOUT_DVORAK : Layout :=
  { name := "Dvorak", base := KEYS_DVORAK_BASE, sym := [], cur := [] }

/-- `KEYS_3L_BASE` (main.rs:555-559). -/
def KEYS_3L_BASE : Layer :=
  [['q', 'f', 'u', 'y', 'z', 'x', 'k', 'c', 'w', 'b'],
   ['o', 'h', 'e', 'a', 'i', 'd', 'r', 't', 'n', 's'],
   [',', 'm', '.', 'j', ';', 'g', 'l', 'p', 'v', '\u0000']]

/-- `KEYS_3L_SYM` (main.rs:561-565); `'\x7b'` and `'\x7d'` are the brace
characters. -/
def KEYS_3L_SYM : Layer :=
  [['\"', '_', '[', ']', '^', '!', '<', '>', '=', '&'],
   ['/', '-', '\x7b', '\x7d', '*', '?', '(', ')', '\'', ':'],
   ['#', '$', '|', '~', '`', '+', '%', '\\', '@']]

/-- `KEYS_3L_CUR` (main.rs:566-570). -/
def KEYS_3L_CUR : Layer :=
  [['\u0000', '1', '2', '3'],
   ['\u0000', '4', '5', '6'],
   ['0', '7', '8', '9']]

/-- `LAYOUT_3L` (main.rs:548-553). -/
def LAYOUT_3L : Layout :=
  { name := "3l", base := KEYS_3L_BASE, sym := KEYS_3L_SYM, cur := KEYS_3L_CUR }

/-- The closed set of layouts the program contains (spec §3: "Layout set
is fixed at three named variants"). -/
def layouts : List Layout := [LAYOUT_QWERTY, LAYOUT_DVORAK, LAYOUT_3L]

/-- Per-key visual theme.  The Rust `Theme` (main.rs:25-44) is a colour
palette; only its identity (`THEME_KEY_BASE` versus `THEME_KEY_HINT`)
matters to the highlight logic, so it is modelled as this two-value
type. -/
inductive Theme
  | base
  | hint
deriving DecidableEq

/-- Identity of the active layout.  The Rust `Keyboard.layout` field is a
`&'static Layout` compared by address against the three layout constants
(`std::ptr::eq` in `next_layout`, main.rs:107-115); since it only ever
points at one of the three constants, it is modelled as this tag. -/
inductive LayoutId
  | qwerty
  | dvorak
  | threeL
deriving DecidableEq

/-- The layout constant a `LayoutId` points at. -/
def layoutOf : LayoutId → Layout
  | LayoutId.qwerty => LAYOUT_QWERTY
  | LayoutId.dvorak => LAYOUT_DVORAK
  | LayoutId.threeL => LAYOUT_3L

/-- The `Keyboard` widget state (main.rs:88-95): the active layout, the
grid of per-key themes (the `text` labels of the Rust `Key` struct are
purely presentational and carry no state, so only the theme of each key
is kept), the panel-visibility flag `draw`, and the themes of the three
modifier indicator buttons `sym`, `cur`, `shift`. -/
structure Keyboard where
  layout : LayoutId
  keys : List (List Theme)
  draw : Bool
  sym : Theme
  cur : Theme
  shift : Theme
deriving DecidableEq

/-- `Keyboard::from_layout` (main.rs:116-150): one key per base-grid
cell, all on the base theme, `draw` set to true, and the three modifier
buttons on the base theme. -/
def Keyboard.from_layout (lid : LayoutId) : Keyboard :=
  { layout := lid,
    keys := (layoutOf lid).base.map (fun row => row.map fun _ => Theme.base),
    draw := true,
    sym := Theme.base,
    cur := Theme.base,
    shift := Theme.base }

/-- `Keyboard::toggle_draw` (main.rs:104-106). -/
def Keyboard.toggle_draw (kb : Keyboard) : Keyboard :=
  { kb with draw := !kb.draw }

/-- `Keyboard::next_layout` (main.rs:107-115): cycle QWERTY → Dvorak →
3l → QWERTY, rebuilding the keyboard wholesale via `from_layout` (the
Rust `set_dvorak` etc. assign `*self = Self::from_layout(..)`). -/
def Keyboard.next_layout (kb : Keyboard) : Keyboard :=
  match kb.layout with
  | LayoutId.qwerty => Keyboard.from_layout LayoutId.dvorak
  | LayoutId.dvorak => Keyboard.from_layout LayoutId.threeL
  | LayoutId.threeL => Keyboard.from_layout LayoutId.qwerty

/-- The `if let Some(row) = self.keys.get_mut(..) { if let Some(key) =
row.get_mut(..) { key.theme = HINT } }` step of `Keyboard::update`
(main.rs:171-175): set one cell to the hint theme, silently doing
nothing when either index is out of range (`List.set` is likewise a
no-op out of range). -/
def setHint (keys : List (List Theme)) (r co : Nat) : List (List Theme) :=
  match keys[r]? with
  | none => keys
  | some row => keys.set r (row.set co Theme.hint)

/-- Theme of the key at `(r, co)` of a theme grid (`none` when the
position does not exist). -/
def themeAt (keys : List (List Theme)) (r co : Nat) : Option Theme :=
  (keys[r]?).bind fun row => row[co]?

/-- `Keyboard::update` (main.rs:161-183): reset every key and every
modifier indicator to the base theme, look the expected character up in
the active layout, and — when a location is found — set the hinted key
and, if the location carries a modifier, the matching indicator. -/
def Keyboard.update (kb : Keyboard) (c : Char) : Keyboard :=
  let kb0 : Keyboard :=
    { kb with
      keys := kb.keys.map (fun row => row.map fun _ => Theme.base),
      sym := Theme.base, cur := Theme.base, shift := Theme.base }
  match (layoutOf kb.layout).location c with
  | none => kb0
  | some loc =>
    let kb1 : Keyboard := { kb0 with keys := setHint kb0.keys loc.row loc.col }
    match loc.modifier with
    | some Modifier.Sym => { kb1 with sym := Theme.hint }
    | some Modifier.Cur => { kb1 with cur := Theme.hint }
    | some Modifier.Shift => { kb1 with shift := Theme.hint }
    | none => kb1

/-- The persisted progress record (cli.rs:39-42): a single character
counter. -/
structure Progress where
  chars : Nat
deriving DecidableEq

/-- The in-memory file data (cli.rs:7-11): the story text (as the
sequence of its characters, already normalized at load) and the
progress.  The on-disk `progress_path` is I/O plumbing and carries no
behaviour, so it is not modelled. -/
structure FileData where
  progress : Progress
  story : List Char
deriving DecidableEq

/-- The application state (main.rs:265-269). -/
structure App where
  keyboard : Keyboard
  file_data : FileData
  exit : Bool
deriving DecidableEq

/-- `App::next` (main.rs:272-277): `story.chars().nth(progress.chars)`,
i.e. the character at the cursor offset, or `none` past the end. -/
def App.next (a : App) : Option Char :=
  a.file_data.story[a.file_data.progress.chars]?

/-- The key codes the handler distinguishes (crossterm's `KeyCode`
restricted to the arms of `App::handle_key_event`; `other` stands for
every remaining code, which falls through to the final `_ => {}`). -/
inductive KeyCode
  | esc
  | char (c : Char)
  | enter
  | tab
  | other
deriving DecidableEq

/-- A key press event: its code and whether the CONTROL modifier is held
(`modifiers.contains(KeyModifiers::CONTROL)` is the only modifier test
the handler performs). -/
structure KeyEvent where
  code : KeyCode
  ctrl : Bool
deriving DecidableEq

/-- `App::handle_key_event` (main.rs:320-358), with the Rust match arms
in source order: Esc exits (whatever the modifiers); Ctrl-n cycles the
layout; Ctrl-h toggles the keyboard panel; any other character key is
compared against `next()` and advances the cursor exactly when it
matches; Enter advances exactly when `next()` is the return glyph `'↩'`;
Tab advances unconditionally; everything else is ignored. -/
def App.handle_key_event (a : App) (e : KeyEvent) : App :=
  match e.code with
  | KeyCode.esc => { a with exit := true }
  | KeyCode.char c =>
    if c = 'n' ∧ e.ctrl = true then
      { a with keyboard := a.keyboard.next_layout }
    else if c = 'h' ∧ e.ctrl = true then
      { a with keyboard := a.keyboard.toggle_draw }
    else if a.next = some c then
      { a with file_data := { a.file_data with progress := { chars := a.file_data.progress.chars + 1 } } }
    else a
  | KeyCode.enter =>
    if a.next = some '↩' then
      { a with file_data := { a.file_data with progress := { chars := a.file_data.progress.chars + 1 } } }
    else a
  | KeyCode.tab =>
    { a with file_data := { a.file_data with progress := { chars := a.file_data.progress.chars + 1 } } }
  | KeyCode.other => a

/-- The three text slices of the story display window. -/
structure Window where
  pre : List Char
  curr : List Char
  post : List Char
deriving DecidableEq

/-- The display-window computation of `<&App as Widget>::render`
(main.rs:374-385): `buff_width = width / 3`; skip
`chars.saturating_sub(buff_width)` characters; the prefix takes
`chars - chars.saturating_sub(buff_width)` characters, the current slice
takes one, and the suffix takes `(2 * buff_width).saturating_sub(prefix_len)`
characters.  `Nat` subtraction is saturating, exactly like the Rust
`saturating_sub` calls (the one plain `-` never underflows). -/
def renderWindow (story : List Char) (chars width : Nat) : Window :=
  let buff_width := width / 3
  let story1 := story.drop (chars - buff_width)
  let prefix_len := chars - (chars - buff_width)
  let pre := story1.take prefix_len
  let story2 := story1.drop prefix_len
  let curr := story2.take 1
  let story3 := story2.drop 1
  let postfix_len := 2 * buff_width - prefix_len
  let post := story3.take postfix_len
  { pre := pre, curr := curr, post := post }

/-- A ten-character story used for concrete counterexamples and
witnesses. -/
def exStory : List Char := ['a', 'b', 'c', 'd', 'e', 'f', 'g', 'h', 'i', 'j']

/-- A concrete state: QWERTY keyboard, one-character story `"a"`, cursor
already at the end of the story. -/
def exApp : App :=
  { keyboard := Keyboard.from_layout LayoutId.qwerty,
    file_data := { progress := { chars := 1 }, story := ['a'] },
    exit := false }

/-- A concrete state with a two-character story and the cursor at its
start. -/
def exApp2 : App :=
  { keyboard := Keyboard.from_layout LayoutId.qwerty,
    file_data := { progress := { chars := 0 }, story := ['a', 'b'] },
    exit := false }

/-- The state reached from `exApp` by one Tab press: its cursor is 2,
strictly past the one-character story. -/
def exApp3 : App :=
  exApp.handle_key_event { code := KeyCode.tab, ctrl := false }

/- ------------------------------------------------------------------ -/
/- Helper lemmas about the scanning engine of the key locator.         -/
/- ------------------------------------------------------------------ -/

theorem scanRow_eq_some {row : List Char} {p : Char → Bool} {co : Nat}
    (h : scanRow row p = some co) : ∃ x, row[co]? = some x ∧ p x = true := by
  induction row generalizing co with
  | nil => simp [scanRow] at h
  | cons y ys ih =>
    cases hy : p y with
    | true =>
      simp [scanRow, hy] at h
      exact h ▸ ⟨y, by simp, hy⟩
    | false =>
      simp [scanRow, hy] at h
      obtain ⟨a, ha, rfl⟩ := h
      obtain ⟨x, hx, hpx⟩ := ih ha
      exact ⟨x, by simpa using hx, hpx⟩

theorem scanRow_eq_none {row : List Char} {p : Char → Bool} :
    scanRow row p = none ↔ ∀ x ∈ row, p x = false := by
  induction row with
  | nil => simp [scanRow]
  | cons y ys ih => cases hy : p y <;> simp [scanRow, hy, ih]

theorem scanLayer_eq_some {layer : Layer} {p : Char → Bool} {r co : Nat}
    (h : scanLayer layer p = some (r, co)) :
    ∃ row, layer[r]? = some row ∧ scanRow row p = some co := by
  induction layer generalizing r with
  | nil => simp [scanLayer] at h
  | cons row rest ih =>
    rw [scanLayer] at h
    cases hrow : scanRow row p with
    | some c0 =>
      rw [hrow] at h
      obtain ⟨rfl, rfl⟩ : 0 = r ∧ c0 = co := by simpa using h
      exact ⟨row, by simp, hrow⟩
    | none =>
      rw [hrow] at h
      simp only [Option.map_eq_some'] at h
      obtain ⟨⟨r', co'⟩, hr', heq⟩ := h
      obtain ⟨rfl, rfl⟩ : r' + 1 = r ∧ co' = co := by
        simpa using heq
      obtain ⟨row', hrow', hco⟩ := ih hr'
      exact ⟨row', by simpa using hrow', hco⟩

theorem scanLayer_eq_none {layer : Layer} {p : Char → Bool} :
    scanLayer layer p = none ↔ ∀ row ∈ layer, ∀ x ∈ row, p x = false := by
  induction layer with
  | nil => simp [scanLayer]
  | cons row rest ih =>
    rw [scanLayer]
    cases hrow : scanRow row p with
    | some c0 =>
      simp only [reduceCtorEq, false_iff, not_forall]
      obtain ⟨x, hx, hpx⟩ := scanRow_eq_some hrow
      have hxmem : x ∈ row := by
        obtain ⟨hn, rfl⟩ := List.getElem?_eq_some.1 hx
        exact List.getElem_mem hn
      exact ⟨row, by simp, x, hxmem, by simp [hpx]⟩
    | none =>
      have hr : ∀ x ∈ row, p x = false := scanRow_eq_none.1 hrow
      simp only [Option.map_eq_none']
      constructor
      · intro h row' hrow' x hx
        rcases List.mem_cons.1 hrow' with rfl | hmem
        · exact hr x hx
        · exact (ih.1 h) row' hmem x hx
      · intro hall
        exact ih.2 fun row' hmem x hx => hall row' (List.mem_cons_of_mem _ hmem) x hx

/-- Soundness of the key locator: a returned location records which layer
matched, and reading that layer back at the location (offset removed for
the numeric layer) recovers a matching cell.  The smallness hypothesis
makes the `u8` casts exact. -/
theorem location_sound {l : Layout} {c : Char} {loc : Location}
    (hs : l.small) (h : l.location c = some loc) :
    (loc.modifier = none ∧
      ∃ row, l.base[loc.row]? = some row ∧ row[loc.col]? = some c) ∨
    (loc.modifier = some Modifier.Sym ∧
      ∃ row, l.sym[loc.row]? = some row ∧ row[loc.col]? = some c) ∨
    (loc.modifier = some Modifier.Cur ∧ 6 ≤ loc.col ∧
      ∃ row, l.cur[loc.row]? = some row ∧ row[loc.col - 6]? = some c) ∨
    (loc.modifier = some Modifier.Shift ∧
      ∃ row x, l.base[loc.row]? = some row ∧ row[loc.col]? = some x ∧
        Layout.shift x = c) := by
  obtain ⟨⟨hbl, hbr⟩, ⟨hsl, hsr⟩, ⟨hcl, hcr⟩⟩ := hs
  rw [Layout.location] at h
  cases h1 : scanLayer l.base (fun x => x == c) with
  | some rc =>
    obtain ⟨r, co⟩ := rc
    rw [h1] at h
    obtain rfl : Location.mk (r % 256) (co % 256) none = loc := by simpa using h
    obtain ⟨row, hrow, hsc⟩ := scanLayer_eq_some h1
    obtain ⟨x, hx, hpx⟩ := scanRow_eq_some hsc
    obtain rfl : x = c := by simpa using hpx
    have hr : r < l.base.length := (List.getElem?_eq_some.1 hrow).1
    have hco : co < row.length := (List.getElem?_eq_some.1 hx).1
    have hrlen : row.length ≤ 250 := hbr row (by
      obtain ⟨hn, rfl⟩ := List.getElem?_eq_some.1 hrow
      exact List.getElem_mem hn)
    have e1 : r % 256 = r := Nat.mod_eq_of_lt (by omega)
    have e2 : co % 256 = co := Nat.mod_eq_of_lt (by omega)
    exact Or.inl ⟨rfl, row, by simpa [e1] using hrow, by simpa [e2] using hx⟩
  | none =>
    rw [h1] at h
    cases h2 : scanLayer l.sym (fun x => x == c) with
    | some rc =>
      obtain ⟨r, co⟩ := rc
      rw [h2] at h
      obtain rfl : Location.mk (r % 256) (co % 256) (some Modifier.Sym) = loc := by
        simpa using h
      obtain ⟨row, hrow, hsc⟩ := scanLayer_eq_some h2
      obtain ⟨x, hx, hpx⟩ := scanRow_eq_some hsc
      obtain rfl : x = c := by simpa using hpx
      have hr : r < l.sym.length := (List.getElem?_eq_some.1 hrow).1
      have hco : co < row.length := (List.getElem?_eq_some.1 hx).1
      have hrlen : row.length ≤ 250 := hsr row (by
        obtain ⟨hn, rfl⟩ := List.getElem?_eq_some.1 hrow
        exact List.getElem_mem hn)
      have e1 : r % 256 = r := Nat.mod_eq_of_lt (by omega)
      have e2 : co % 256 = co := Nat.mod_eq_of_lt (by omega)
      exact Or.inr (Or.inl ⟨rfl, row, by simpa [e1] using hrow, by simpa [e2] using hx⟩)
    | none =>
      rw [h2] at h
      cases h3 : scanLayer l.cur (fun x => x == c) with
      | some rc =>
        obtain ⟨r, co⟩ := rc
        rw [h3] at h
        obtain rfl : Location.mk (r % 256) ((co % 256 + 6) % 256) (some Modifier.Cur) = loc := by
          simpa using h
        obtain ⟨row, hrow, hsc⟩ := scanLayer_eq_some h3
        obtain ⟨x, hx, hpx⟩ := scanRow_eq_some hsc
        obtain rfl : x = c := by simpa using hpx
        have hr : r < l.cur.length := (List.getElem?_eq_some.1 hrow).1
        have hco : co < row.length := (List.getElem?_eq_some.1 hx).1
        have hrlen : row.length ≤ 250 := hcr row (by
          obtain ⟨hn, rfl⟩ := List.getElem?_eq_some.1 hrow
          exact List.getElem_mem hn)
        have e1 : r % 256 = r := Nat.mod_eq_of_lt (by omega)
        have e2 : (co % 256 + 6) % 256 = co + 6 := by
          have : co % 256 = co := Nat.mod_eq_of_lt (by omega)
          rw [this]
          exact Nat.mod_eq_of_lt (by omega)
        refine Or.inr (Or.inr (Or.inl ⟨rfl, by simp [e2], row, by simpa [e1] using hrow, ?_⟩))
        simpa [e2] using hx
      | none =>
        rw [h3] at h
        cases h4 : scanLayer l.base (fun x => Layout.shift x == c) with
        | some rc =>
          obtain ⟨r, co⟩ := rc
          rw [h4] at h
          obtain rfl : Location.mk (r % 256) (co % 256) (some Modifier.Shift) = loc := by
            simpa using h
          obtain ⟨row, hrow, hsc⟩ := scanLayer_eq_some h4
          obtain ⟨x, hx, hpx⟩ := scanRow_eq_some hsc
          have hxc : Layout.shift x = c := by simpa using hpx
          have hr : r < l.base.length := (List.getElem?_eq_some.1 hrow).1
          have hco : co < row.length := (List.getElem?_eq_some.1 hx).1
          have hrlen : row.length ≤ 250 := hbr row (by
            obtain ⟨hn, rfl⟩ := List.getElem?_eq_some.1 hrow
            exact List.getElem_mem hn)
          have e1 : r % 256 = r := Nat.mod_eq_of_lt (by omega)
          have e2 : co % 256 = co := Nat.mod_eq_of_lt (by omega)
          exact Or.inr (Or.inr (Or.inr ⟨rfl, row, x,
            by simpa [e1] using hrow, by simpa [e2] using hx, hxc⟩))
        | none =>
          rw [h4] at h
          exact absurd h (by simp)

/- ------------------------------------------------------------------ -/
/- C6, C10: the progress cursor's `next`.                              -/
/- ------------------------------------------------------------------ -/

/-- C6: for every story and cursor `k` with `0 ≤ k < length(story)`,
`next()` returns `Some` of the character at offset `k`, and at
`k = length(story)` it returns `None` — an explicit absent value. -/
theorem c6_next_contract (a : App) :
    (∀ h : a.file_data.progress.chars < a.file_data.story.length,
      a.next = some (a.file_data.story.get ⟨a.file_data.progress.chars, h⟩)) ∧
    (a.file_data.progress.chars = a.file_data.story.length → a.next = none) := by
  constructor
  · intro h
    simp [App.next, List.getElem?_eq_getElem h]
  · intro h
    simp [App.next, List.getElem?_eq_none (Nat.le_of_eq h.symm)]

/-- Witness for C6: on the story `"ab"` with cursor 0, `next()` is
`'a'`; on the story `"a"` with cursor 1 (its length), `next()` is
`none`. -/
theorem c6_witness : exApp2.next = some 'a' ∧ exApp.next = none := by
  constructor
  · have := (c6_next_contract exApp2).1 (by decide)
    simpa using this
  · exact (c6_next_contract exApp).2 (by decide)

/-- C10: `next()` is total past the end as well — for every cursor value
at or beyond `length(story)` it returns `None` (no panic, no
out-of-bounds read), and such values are reachable because Tab advances
the cursor unconditionally. -/
theorem c10_next_total_past_end (a : App)
    (h : a.file_data.story.length ≤ a.file_data.progress.chars) :
    a.next = none ∧
    (a.handle_key_event { code := KeyCode.tab, ctrl := false }).file_data.progress.chars
      = a.file_data.progress.chars + 1 := by
  exact ⟨by simp [App.next, List.getElem?_eq_none h], rfl⟩

/-- Witness for C10 at `exApp3`, whose cursor 2 is strictly past its
one-character story. -/
theorem c10_witness : exApp3.next = none :=
  (c10_next_total_past_end exApp3 (by decide)).1

/- ------------------------------------------------------------------ -/
/- C7: graded advances of the event handler.                           -/
/- ------------------------------------------------------------------ -/

/-- C7: a plain (non-control) character key advances the cursor by
exactly one when `next()` equals the typed character and leaves it
unchanged otherwise; Enter does the same against the return glyph `'↩'`;
in both cases the story, the active layout and the keyboard-visibility
flag are untouched (the whole keyboard state is). -/
theorem c7_graded_advance (a : App) (c : Char) :
    ((a.handle_key_event { code := KeyCode.char c, ctrl := false }).file_data.progress.chars
      = if a.next = some c then a.file_data.progress.chars + 1
        else a.file_data.progress.chars) ∧
    (a.handle_key_event { code := KeyCode.char c, ctrl := false }).file_data.story
      = a.file_data.story ∧
    (a.handle_key_event { code := KeyCode.char c, ctrl := false }).keyboard = a.keyboard ∧
    ((a.handle_key_event { code := KeyCode.enter, ctrl := false }).file_data.progress.chars
      = if a.next = some '↩' then a.file_data.progress.chars + 1
        else a.file_data.progress.chars) ∧
    (a.handle_key_event { code := KeyCode.enter, ctrl := false }).file_data.story
      = a.file_data.story ∧
    (a.handle_key_event { code := KeyCode.enter, ctrl := false }).keyboard = a.keyboard := by
  refine ⟨?_, ?_, ?_, ?_, ?_, ?_⟩
  · by_cases h : a.next = some c <;> simp [App.handle_key_event, h]
  · by_cases h : a.next = some c <;> simp [App.handle_key_event, h]
  · by_cases h : a.next = some c <;> simp [App.handle_key_event, h]
  · by_cases h : a.next = some '↩' <;> simp [App.handle_key_event, h]
  · by_cases h : a.next = some '↩' <;> simp [App.handle_key_event, h]
  · by_cases h : a.next = some '↩' <;> simp [App.handle_key_event, h]

/- ------------------------------------------------------------------ -/
/- C2: the cursor invariant under input events.                        -/
/- ------------------------------------------------------------------ -/

/-- Counterexample to C2 as stated: from the valid state `exApp`
(cursor 1 = story length 1), a single Tab press drives the cursor to 2,
strictly past the end of the story. -/
theorem c2_counterexample :
    exApp.file_data.progress.chars ≤ exApp.file_data.story.length ∧
    ¬ (exApp.handle_key_event { code := KeyCode.tab, ctrl := false }).file_data.progress.chars
        ≤ (exApp.handle_key_event { code := KeyCode.tab, ctrl := false }).file_data.story.length := by
  decide

/-- C2 amended: every input-event step leaves the story unchanged and
grows the cursor by at most one, and every step other than Tab preserves
`cursor ≤ length(story)`; Tab advances unconditionally and can push the
cursor strictly past the end. -/
theorem c2_amended_invariant (a : App) (e : KeyEvent)
    (hinv : a.file_data.progress.chars ≤ a.file_data.story.length) :
    (a.handle_key_event e).file_data.story = a.file_data.story ∧
    (a.handle_key_event e).file_data.progress.chars ≤ a.file_data.progress.chars + 1 ∧
    (e.code ≠ KeyCode.tab →
      (a.handle_key_event e).file_data.progress.chars
        ≤ (a.handle_key_event e).file_data.story.length) := by
  obtain ⟨code, ctrl⟩ := e
  cases code with
  | esc => exact ⟨rfl, Nat.le_succ _, fun _ => hinv⟩
  | char c =>
    simp only [App.handle_key_event]
    by_cases h1 : c = 'n' ∧ ctrl = true
    · rw [if_pos h1]
      exact ⟨rfl, Nat.le_succ _, fun _ => hinv⟩
    · rw [if_neg h1]
      by_cases h2 : c = 'h' ∧ ctrl = true
      · rw [if_pos h2]
        exact ⟨rfl, Nat.le_succ _, fun _ => hinv⟩
      · rw [if_neg h2]
        by_cases h3 : a.next = some c
        · rw [if_pos h3]
          have hlt : a.file_data.progress.chars < a.file_data.story.length :=
            (List.getElem?_eq_some.1 h3).1
          exact ⟨rfl, Nat.le_refl _, fun _ => hlt⟩
        · rw [if_neg h3]
          exact ⟨rfl, Nat.le_succ _, fun _ => hinv⟩
  | enter =>
    simp only [App.handle_key_event]
    by_cases h3 : a.next = some '↩'
    · rw [if_pos h3]
      have hlt : a.file_data.progress.chars < a.file_data.story.length :=
        (List.getElem?_eq_some.1 h3).1
      exact ⟨rfl, Nat.le_refl _, fun _ => hlt⟩
    · rw [if_neg h3]
      exact ⟨rfl, Nat.le_succ _, fun _ => hinv⟩
  | tab => exact ⟨rfl, Nat.le_refl _, fun hne => absurd rfl hne⟩
  | other => exact ⟨rfl, Nat.le_succ _, fun _ => hinv⟩

/-- Witness for the amended C2: a non-Tab event ('x' typed at the end of
the story `"a"`) keeps the cursor within bounds. -/
theorem c2_witness :
    (exApp.handle_key_event { code := KeyCode.char 'x', ctrl := false }).file_data.progress.chars
      ≤ (exApp.handle_key_event { code := KeyCode.char 'x', ctrl := false }).file_data.story.length :=
  (c2_amended_invariant exApp { code := KeyCode.char 'x', ctrl := false } (by decide)).2.2
    (by decide)

/- ------------------------------------------------------------------ -/
/- C5: the display window.                                             -/
/- ------------------------------------------------------------------ -/

/-- Counterexample to C5 as stated: with a ten-character story, cursor 4
and width 7, the cursor is at least `7 / 3 = 2` from the start and the
suffix budget `2 * (7 / 3) - 2 = 2` is available after the cursor, yet
the window totals 5 characters, not the claimed exact 7. -/
theorem c5_counterexample :
    7 / 3 ≤ 4 ∧ 4 + 1 + (7 / 3) ≤ exStory.length ∧
    (renderWindow exStory 4 7).pre.length + (renderWindow exStory 4 7).curr.length
      + (renderWindow exStory 4 7).post.length = 5 ∧ (5 : Nat) ≠ 7 := by
  decide

/-- C5 amended: for cursor `k ≤ length(story)` the prefix has exactly
`min k (w/3)` characters (so near `k = 0` it is exactly `k`), the
current slice is the single character under the cursor (empty only at
the very end), the suffix fills `2*(w/3) - prefixLen` as far as the story
allows, the total is at most `2*(w/3) + 1` — hence at most `w` whenever
`w ≥ 3`, though not exactly `w` in general — and equals exactly
`2*(w/3) + 1` away from both text boundaries; the boundary subtraction
is clamped at zero, never wrapped. -/
theorem c5_amended_window (story : List Char) (k w : Nat) (hk : k ≤ story.length) :
    (renderWindow story k w).pre.length = min k (w / 3) ∧
    (renderWindow story k w).curr.length = min 1 (story.length - k) ∧
    (renderWindow story k w).post.length
      = min (2 * (w / 3) - min k (w / 3)) (story.length - k - 1) ∧
    (renderWindow story k w).pre.length + (renderWindow story k w).curr.length
      + (renderWindow story k w).post.length ≤ 2 * (w / 3) + 1 ∧
    (3 ≤ w →
      (renderWindow story k w).pre.length + (renderWindow story k w).curr.length
        + (renderWindow story k w).post.length ≤ w) ∧
    (w / 3 ≤ k → k + 1 + (w / 3) ≤ story.length →
      (renderWindow story k w).pre.length + (renderWindow story k w).curr.length
        + (renderWindow story k w).post.length = 2 * (w / 3) + 1) := by
  simp only [renderWindow, List.length_take, List.length_drop]
  refine ⟨by omega, by omega, by omega, by omega, by omega, by omega⟩

/-- Witness for the amended C5 at story `"abcdefghij"`, cursor 2,
width 9. -/
theorem c5_witness :
    (renderWindow exStory 2 9).pre.length = min 2 (9 / 3) :=
  (c5_amended_window exStory 2 9 (by decide)).1

/- ------------------------------------------------------------------ -/
/- C1: the locator's scan order.                                       -/
/- ------------------------------------------------------------------ -/

/-- C1: `Layout::location` computes exactly the spec's ordered
first-match algorithm — base layer verbatim, then symbol layer, then
numeric layer with the column offset 6, then the shifted base layer,
`None` only when no step matches — and, in particular, a character that
is absent from the base layer verbatim but present in the symbol layer
resolves to a Symbol-modifier location (it never reaches the
shifted-base step). -/
theorem c1_locator_order (l : Layout) (c : Char) :
    l.location c = locationSpec l c ∧
    ((∀ row ∈ l.base, ∀ x ∈ row, x ≠ c) → (∃ row ∈ l.sym, c ∈ row) →
      ∃ r co, l.location c = some ⟨r, co, some Modifier.Sym⟩) := by
  constructor
  · rw [Layout.location, locationSpec]
    cases hb : scanLayer l.base (fun x => x == c) with
    | some rc =>
      obtain ⟨r, co⟩ := rc
      rfl
    | none =>
      cases hs : scanLayer l.sym (fun x => x == c) with
      | some rc =>
        obtain ⟨r, co⟩ := rc
        rfl
      | none =>
        cases hc : scanLayer l.cur (fun x => x == c) with
        | some rc =>
          obtain ⟨r, co⟩ := rc
          rfl
        | none =>
          cases hsh : scanLayer l.base (fun x => Layout.shift x == c) with
          | some rc =>
            obtain ⟨r, co⟩ := rc
            rfl
          | none => rfl
  · intro hbase hsym
    obtain ⟨row, hrowmem, hcmem⟩ := hsym
    have h1 : scanLayer l.base (fun x => x == c) = none := by
      rw [scanLayer_eq_none]
      intro row' hr' x hx
      exact beq_eq_false_iff_ne.2 (hbase row' hr' x hx)
    have h2 : scanLayer l.sym (fun x => x == c) ≠ none := by
      intro hn
      have := scanLayer_eq_none.1 hn row hrowmem c hcmem
      simp at this
    obtain ⟨⟨r, co⟩, h3⟩ := Option.ne_none_iff_exists'.1 h2
    refine ⟨r % 256, co % 256, ?_⟩
    rw [Layout.location, h1, h3]

/-- Witness for C1: `'<'` is absent from the 3l base layer, present in
its symbol layer (and also reachable as shift of the base `','`), and
resolves to a Symbol-modifier location. -/
theorem c1_witness :
    ∃ r co, LAYOUT_3L.location '<' = some ⟨r, co, some Modifier.Sym⟩ :=
  (c1_locator_order LAYOUT_3L '<').2 (by decide) (by decide)

/- ------------------------------------------------------------------ -/
/- C3: the sentinel empty cell.                                        -/
/- ------------------------------------------------------------------ -/

/-- Counterexample to C3 as stated: `Layout::location` has no sentinel
guard, so looking up the sentinel `'\0'` on QWERTY matches the base
cell (0, 13) verbatim — a `Some` location that indexes the sentinel
itself, where the claim demands `None`. -/
theorem c3_counterexample :
    LAYOUT_QWERTY.location '\u0000' = some ⟨0, 13, none⟩ ∧
    LAYOUT_QWERTY.cellAt ⟨0, 13, none⟩ = some '\u0000' := by
  decide

/-- C3 amended: for every non-sentinel target character, a returned
location never addresses a sentinel cell; but the sentinel itself, when
looked up, does match a sentinel cell verbatim (see the
counterexample). -/
theorem c3_amended_no_sentinel :
    ∀ l ∈ layouts, ∀ c : Char, c ≠ '\u0000' →
      ∀ loc, l.location c = some loc → l.cellAt loc ≠ some '\u0000' := by
  intro l hl c hc loc hloc
  have hs : l.small := by
    simp only [layouts, List.mem_cons, List.mem_singleton, List.not_mem_nil, or_false] at hl
    rcases hl with rfl | rfl | rfl <;> decide
  rcases location_sound hs hloc with
    ⟨hm, row, hrow, hcell⟩ | ⟨hm, row, hrow, hcell⟩ |
    ⟨hm, _, row, hrow, hcell⟩ | ⟨hm, row, x, hrow, hcell, hshift⟩
  · simp only [Layout.cellAt, hm, hrow, Option.some_bind, hcell]
    exact fun h => hc (Option.some.inj h)
  · simp only [Layout.cellAt, hm, hrow, Option.some_bind, hcell]
    exact fun h => hc (Option.some.inj h)
  · simp only [Layout.cellAt, hm, hrow, Option.some_bind, hcell]
    exact fun h => hc (Option.some.inj h)
  · simp only [Layout.cellAt, hm, hrow, Option.some_bind, hcell]
    intro h
    obtain rfl : x = '\u0000' := Option.some.inj h
    exact hc (by rw [← hshift]; decide)

/-- Witness for the amended C3: locating `'a'` on QWERTY yields a
location whose cell is `'a'`, not the sentinel. -/
theorem c3_witness :
    LAYOUT_QWERTY.cellAt ⟨2, 1, none⟩ ≠ some '\u0000' :=
  c3_amended_no_sentinel LAYOUT_QWERTY (by decide) 'a' (by decide) ⟨2, 1, none⟩ (by decide)

/- ------------------------------------------------------------------ -/
/- C4: shift pairing of base characters.                               -/
/- ------------------------------------------------------------------ -/

/-- Counterexample to C4 as stated: `','` sits in the 3l base grid at
(2, 0) with no modifier, but its shifted form `'<'` is found in the
symbol layer first, so `locate(shift(','))` returns (0, 6) with modifier
Symbol — not modifier Shift at (2, 0) as the claim demands. -/
theorem c4_counterexample :
    LAYOUT_3L.location ',' = some ⟨2, 0, none⟩ ∧
    Layout.shift ',' = '<' ∧
    LAYOUT_3L.location (Layout.shift ',') = some ⟨0, 6, some Modifier.Sym⟩ ∧
    (Location.mk 0 6 (some Modifier.Sym)) ≠ (Location.mk 2 0 (some Modifier.Shift)) := by
  decide

/-- C4 amended: for every non-sentinel base-grid character `c` whose
shifted form does not itself occur in the base, symbol, or numeric
layer (the symbol-layer precedence of C1 forces this exclusion),
`locate(c)` carries no modifier and `locate(shift(c))` is the same
(row, col) with modifier Shift. -/
theorem c4_amended_shift_pairing :
    ∀ l ∈ layouts, ∀ row ∈ l.base, ∀ c ∈ row, c ≠ '\u0000' →
      (∀ row' ∈ l.base, Layout.shift c ∉ row') →
      (∀ row' ∈ l.sym, Layout.shift c ∉ row') →
      (∀ row' ∈ l.cur, Layout.shift c ∉ row') →
      (l.location c).map Location.modifier = some none ∧
      l.location (Layout.shift c)
        = (l.location c).map fun loc => ⟨loc.row, loc.col, some Modifier.Shift⟩ := by
  decide

/-- Witness for the amended C4: `'q'` on QWERTY is at (1, 1) unmodified
and `'Q'` resolves to (1, 1) with modifier Shift. -/
theorem c4_witness :
    (LAYOUT_QWERTY.location 'q').map Location.modifier = some none ∧
    LAYOUT_QWERTY.location (Layout.shift 'q')
      = (LAYOUT_QWERTY.location 'q').map fun loc => ⟨loc.row, loc.col, some Modifier.Shift⟩ :=
  c4_amended_shift_pairing LAYOUT_QWERTY (by decide)
    ['\u0000', 'q', 'w', 'e', 'r', 't', 'y', 'u', 'i', 'o', 'p', '[', ']', '\\'] (by decide)
    'q' (by decide) (by decide) (by decide) (by decide) (by decide)

/- ------------------------------------------------------------------ -/
/- C8: grid round-trip through the locator.                            -/
/- ------------------------------------------------------------------ -/

/-- C8: every non-sentinel character present in a layout's base, symbol
or numeric grid is located, and re-indexing the layer named by the
returned modifier at (row, col) — subtracting the fixed offset 6 for the
numeric layer — yields the character back. -/
theorem c8_grid_roundtrip :
    ∀ l ∈ layouts, ∀ layer ∈ [l.base, l.sym, l.cur], ∀ row ∈ layer, ∀ c ∈ row,
      c ≠ '\u0000' → Option.bind (l.location c) l.cellAt = some c := by
  decide

/-- Witness for C8: the digit `'1'` of the 3l numeric layer round-trips
through its located position (0, 7, Numeric). -/
theorem c8_witness :
    Option.bind (LAYOUT_3L.location '1') LAYOUT_3L.cellAt = some '1' :=
  c8_grid_roundtrip LAYOUT_3L (by decide) LAYOUT_3L.cur (by decide)
    ['\u0000', '1', '2', '3'] (by decide) '1' (by decide) (by decide)

/- ------------------------------------------------------------------ -/
/- C9: the highlight recomputation.                                    -/
/- ------------------------------------------------------------------ -/

theorem row_reset_ne_hint (orig : List Theme) (co : Nat) :
    (orig.map fun _ => Theme.base)[co]? ≠ some Theme.hint := by
  rw [List.getElem?_map]
  cases orig[co]? <;> simp

theorem themeAt_reset (keys : List (List Theme)) (r co : Nat) :
    themeAt (keys.map fun row => row.map fun _ => Theme.base) r co ≠ some Theme.hint := by
  unfold themeAt
  rw [List.getElem?_map]
  cases keys[r]? with
  | none => simp
  | some row =>
    simp only [Option.map_some', Option.some_bind]
    exact row_reset_ne_hint row co

/-- Every location the locator returns on one of the program's three
layouts addresses a position that exists in that layout's base grid (the
symbol and numeric layers of the 3l layout sit inside the base grid's
footprint, the numeric one thanks to its column offset 6). -/
theorem location_fits (lid : LayoutId) (c : Char) (loc : Location)
    (h : (layoutOf lid).location c = some loc) :
    ∃ row, (layoutOf lid).base[loc.row]? = some row ∧ loc.col < row.length := by
  have hs : (layoutOf lid).small := by cases lid <;> decide
  rcases location_sound hs h with
    ⟨_, row, hrow, hcell⟩ | ⟨_, row, hrow, hcell⟩ |
    ⟨_, h6, row, hrow, hcell⟩ | ⟨_, row, x, hrow, hcell, _⟩
  · exact ⟨row, hrow, (List.getElem?_eq_some.1 hcell).1⟩
  · cases lid with
    | qwerty => simp [layoutOf, LAYOUT_QWERTY] at hrow
    | dvorak => simp [layoutOf, LAYOUT_DVORAK] at hrow
    | threeL =>
      have hrlt : loc.row < (layoutOf LayoutId.threeL).sym.length :=
        (List.getElem?_eq_some.1 hrow).1
      have hco : loc.col < row.length := (List.getElem?_eq_some.1 hcell).1
      have hmem : row ∈ (layoutOf LayoutId.threeL).sym := by
        obtain ⟨hn, rfl⟩ := List.getElem?_eq_some.1 hrow
        exact List.getElem_mem hn
      have hrl : row.length ≤ 10 := by
        have hall : ∀ r ∈ (layoutOf LayoutId.threeL).sym, r.length ≤ 10 := by decide
        exact hall row hmem
      have hsymlen : (layoutOf LayoutId.threeL).sym.length = 3 := by decide
      have hbaselen : (layoutOf LayoutId.threeL).base.length = 3 := by decide
      have hbase : loc.row < (layoutOf LayoutId.threeL).base.length := by omega
      refine ⟨(layoutOf LayoutId.threeL).base[loc.row],
        List.getElem?_eq_getElem hbase, ?_⟩
      have hall : ∀ r ∈ (layoutOf LayoutId.threeL).base, r.length = 10 := by decide
      have := hall _ (List.getElem_mem hbase)
      omega
  · cases lid with
    | qwerty => simp [layoutOf, LAYOUT_QWERTY] at hrow
    | dvorak => simp [layoutOf, LAYOUT_DVORAK] at hrow
    | threeL =>
      have hrlt : loc.row < (layoutOf LayoutId.threeL).cur.length :=
        (List.getElem?_eq_some.1 hrow).1
      have hco : loc.col - 6 < row.length := (List.getElem?_eq_some.1 hcell).1
      have hmem : row ∈ (layoutOf LayoutId.threeL).cur := by
        obtain ⟨hn, rfl⟩ := List.getElem?_eq_some.1 hrow
        exact List.getElem_mem hn
      have hrl : row.length ≤ 4 := by
        have hall : ∀ r ∈ (layoutOf LayoutId.threeL).cur, r.length ≤ 4 := by decide
        exact hall row hmem
      have hcurlen : (layoutOf LayoutId.threeL).cur.length = 3 := by decide
      have hbaselen : (layoutOf LayoutId.threeL).base.length = 3 := by decide
      have hbase : loc.row < (layoutOf LayoutId.threeL).base.length := by omega
      refine ⟨(layoutOf LayoutId.threeL).base[loc.row],
        List.getElem?_eq_getElem hbase, ?_⟩
      have hall : ∀ r ∈ (layoutOf LayoutId.threeL).base, r.length = 10 := by decide
      have := hall _ (List.getElem_mem hbase)
      omega
  · exact ⟨row, hrow, (List.getElem?_eq_some.1 hcell).1⟩

/-- C9: one highlight recomputation `update(c)` yields hint states that
are a pure function of the active layout and the expected character `c`
alone: a grid key ends hinted exactly when the locator's result points
at its (row, col); each modifier indicator ends hinted exactly when the
locator returned that modifier; and when the locator returns `None`
nothing is hinted — whatever the previous frame's highlight assignment
was.  The hypothesis records the structural invariant that the key grid
was built from the active layout's base grid (`from_layout` establishes
it, and every layout switch rebuilds the keyboard through
`from_layout`). -/
theorem c9_update_recompute (kb : Keyboard) (c : Char)
    (hshape : kb.keys.map List.length = (layoutOf kb.layout).base.map List.length) :
    (∀ r co, themeAt (kb.update c).keys r co = some Theme.hint ↔
      ∃ loc, (layoutOf kb.layout).location c = some loc ∧ loc.row = r ∧ loc.col = co) ∧
    ((kb.update c).sym = Theme.hint ↔
      ∃ loc, (layoutOf kb.layout).location c = some loc ∧ loc.modifier = some Modifier.Sym) ∧
    ((kb.update c).cur = Theme.hint ↔
      ∃ loc, (layoutOf kb.layout).location c = some loc ∧ loc.modifier = some Modifier.Cur) ∧
    ((kb.update c).shift = Theme.hint ↔
      ∃ loc, (layoutOf kb.layout).location c = some loc ∧ loc.modifier = some Modifier.Shift) := by
  cases hloc : (layoutOf kb.layout).location c with
  | none =>
    simp only [Keyboard.update, hloc]
    refine ⟨fun r co => ?_, ?_, ?_, ?_⟩
    · constructor
      · intro h
        exact absurd h (themeAt_reset kb.keys r co)
      · rintro ⟨loc, h, -⟩
        exact Option.noConfusion h
    · simp
    · simp
    · simp
  | some loc =>
    simp only [Keyboard.update, hloc]
    obtain ⟨brow, hbrow, hcol⟩ := location_fits kb.layout c loc hloc
    have h1 : (kb.keys.map List.length)[loc.row]?
        = ((layoutOf kb.layout).base.map List.length)[loc.row]? := by rw [hshape]
    rw [List.getElem?_map, List.getElem?_map, hbrow] at h1
    obtain ⟨orig, horig, hlen⟩ := Option.map_eq_some'.1 h1
    have hG : (kb.keys.map fun row => row.map fun _ => Theme.base)[loc.row]?
        = some (orig.map fun _ => Theme.base) := by
      rw [List.getElem?_map, horig]
      rfl
    have hGlr : loc.row < (kb.keys.map fun row => row.map fun _ => Theme.base).length :=
      (List.getElem?_eq_some.1 hG).1
    have hlc : loc.col < (orig.map fun _ => Theme.base).length := by
      rw [List.length_map]
      omega
    have hkeys : ∀ r co,
        themeAt (setHint (kb.keys.map fun row => row.map fun _ => Theme.base)
          loc.row loc.col) r co = some Theme.hint ↔ (loc.row = r ∧ loc.col = co) := by
      intro r co
      simp only [setHint]
      rw [hG]
      by_cases hr : loc.row = r
      · subst hr
        simp only [themeAt]
        rw [List.getElem?_set_self hGlr]
        simp only [Option.some_bind]
        by_cases hc2 : loc.col = co
        · subst hc2
          rw [List.getElem?_set_self hlc]
          simp
        · rw [List.getElem?_set_ne hc2]
          simp only [iff_false_intro hc2, and_false, iff_false]
          exact row_reset_ne_hint orig co
      · simp only [themeAt]
        rw [List.getElem?_set_ne hr]
        simp only [iff_false_intro hr, false_and, iff_false]
        intro hcontra
        exact themeAt_reset kb.keys r co hcontra
    cases hm : loc.modifier with
    | none =>
      simp only [hm]
      refine ⟨fun r co => ?_, ?_, ?_, ?_⟩
      · rw [hkeys r co]
        simp
      · simp [hm]
      · simp [hm]
      · simp [hm]
    | some m =>
      cases m
      · simp only [hm]
        refine ⟨fun r co => ?_, ?_, ?_, ?_⟩
        · rw [hkeys r co]
          simp
        · simp [hm]
        · simp [hm]
        · simp [hm]
      · simp only [hm]
        refine ⟨fun r co => ?_, ?_, ?_, ?_⟩
        · rw [hkeys r co]
          simp
        · simp [hm]
        · simp [hm]
        · simp [hm]
      · simp only [hm]
        refine ⟨fun r co => ?_, ?_, ?_, ?_⟩
        · rw [hkeys r co]
          simp
        · simp [hm]
        · simp [hm]
        · simp [hm]

/-- Witness for C9: updating a freshly built 3l keyboard for the
expected character `'1'` hints the key at (0, 7) and the Numeric
indicator. -/
theorem c9_witness :
    (∀ r co,
      themeAt ((Keyboard.from_layout LayoutId.threeL).update '1').keys r co = some Theme.hint ↔
        ∃ loc, (layoutOf (Keyboard.from_layout LayoutId.threeL).layout).location '1' = some loc ∧
          loc.row = r ∧ loc.col = co) ∧
    (((Keyboard.from_layout LayoutId.threeL).update '1').sym = Theme.hint ↔
      ∃ loc, (layoutOf (Keyboard.from_layout LayoutId.threeL).layout).location '1' = some loc ∧
        loc.modifier = some Modifier.Sym) ∧
    (((Keyboard.from_layout LayoutId.threeL).update '1').cur = Theme.hint ↔
      ∃ loc, (layoutOf (Keyboard.from_layout LayoutId.threeL).layout).location '1' = some loc ∧
        loc.modifier = some Modifier.Cur) ∧
    (((Keyboard.from_layout LayoutId.threeL).update '1').shift = Theme.hint ↔
      ∃ loc, (layoutOf (Keyboard.from_layout LayoutId.threeL).layout).location '1' = some loc ∧
        loc.modifier = some Modifier.Shift) :=
  c9_update_recompute (Keyboard.from_layout LayoutId.threeL) '1' (by decide)

end MaddiType
